import Mathlib

/-!
Shallow embedding of the data-generator code in the pomegranate tutorial
notebook `C_Feature_Tutorial_7_Data_Generators.ipynb`: the abstract
`BaseGenerator` contract and the custom out-of-core `MemoryMapGenerator`
adapter defined there, together with theorems settling the specification's
claims about them.

A numpy array opened with `numpy.load(filename, mmap_mode='r')` is modelled
by the list of its rows (each row an opaque element of type `α`); weight
arrays are lists of rationals (the code only ever stores given values or the
literal `1.0`, so exact arithmetic is faithful).  Python's generator function
`batches` is a `while` loop; it is embedded with explicit fuel so that a
configuration on which the loop never exits is observable (the run is marked
unfinished at every fuel).
-/

/-- Python slicing `l[start:stop]` of a list or 1-dimensional numpy array,
for nonnegative indices: out-of-range bounds are clamped to the end of the
list and `stop ≤ start` gives `[]`. -/
def pySlice (l : List α) (start stop : ℕ) : List α :=
  (l.drop start).take (stop - start)

/-- The out-of-core adapter of the tutorial.  `__init__` stores exactly
three attributes: the memory-mapped dataset `self.X`, the weight array
`self.weights` and the configured `self.batch_size`.  The generator object
itself holds no traversal cursor. -/
structure MemoryMapGenerator (α : Type) where
  X : List α
  weights : List ℚ
  batch_size : ℕ

/-- `MemoryMapGenerator.__init__(filename, weights=None, batch_size=None)`:
when `weights is None` it defaults to `numpy.ones(self.X.shape[0])`, and
when `batch_size is None` it defaults to `self.X.shape[0]`.  The body
performs no validation of any kind. -/
def MemoryMapGenerator.init (X : List α) (weights : Option (List ℚ))
    (batch_size : Option ℕ) : MemoryMapGenerator α where
  X := X
  weights :=
    match weights with
    | none => List.replicate X.length 1
    | some w => w
  batch_size :=
    match batch_size with
    | none => X.length
    | some b => b

/-- `__len__`: `len(self.X)`. -/
def MemoryMapGenerator.length (g : MemoryMapGenerator α) : ℕ :=
  g.X.length

/-- The `while start < len(self)` loop of `batches`, run with the given
fuel from loop state `(start, stop)` (the Python locals `start` and `end`).
Returns the batches yielded so far, paired with `true` when the loop guard
failed within the fuel (the epoch completed) and `false` when the fuel ran
out first; a configuration on which the loop runs forever is therefore
`false` at every fuel. -/
def MemoryMapGenerator.batchesAux (g : MemoryMapGenerator α) :
    ℕ → ℕ → ℕ → List (List α × List ℚ) × Bool
  | 0, _, _ => ([], false)
  | fuel + 1, start, stop =>
    if start < g.X.length then
      let rest := g.batchesAux fuel (start + g.batch_size) (stop + g.batch_size)
      ((pySlice g.X start stop, pySlice g.weights start stop) :: rest.1, rest.2)
    else
      ([], true)

/-- The loop of `batches()` started, as in the source, from
`start, end = 0, self.batch_size`, with the given fuel. -/
def MemoryMapGenerator.batchesN (g : MemoryMapGenerator α) (fuel : ℕ) :
    List (List α × List ℚ) × Bool :=
  g.batchesAux fuel 0 g.batch_size

/-- One full epoch produced by a call of `batches()`: `some` of the list of
yielded (feature-slice, weight-slice) pairs when the loop terminates, and
`none` when it runs forever.  Fuel `length + 1` completes every terminating
configuration, because each iteration advances `start` by `batch_size`. -/
def MemoryMapGenerator.batches (g : MemoryMapGenerator α) :
    Option (List (List α × List ℚ)) :=
  let r := g.batchesN (g.length + 1)
  if r.2 then some r.1 else none

/-- The loop of `batches()` terminates: some amount of fuel completes it. -/
def MemoryMapGenerator.terminates (g : MemoryMapGenerator α) : Prop :=
  ∃ fuel, (g.batchesN fuel).2 = true

/-- The state of the generator object returned by one call of `batches()`:
the loop locals `start`, `end` (here `stop`, since `end` is reserved) and
`iteration`. -/
structure BatchIterator where
  start : ℕ
  stop : ℕ
  iteration : ℕ

/-- Evaluating the call expression `batches()`: Python creates a fresh
generator object whose locals are initialized by
`start, end = 0, self.batch_size` and `iteration = 0`.  The
`MemoryMapGenerator` object stores no cursor, so the fresh state depends
only on the immutable `batch_size` field. -/
def MemoryMapGenerator.batchesCall (g : MemoryMapGenerator α) : BatchIterator :=
  ⟨0, g.batch_size, 0⟩

/-- One resumption step of the generator object: when `start < len(self)`
the loop body yields the pair of slices and advances all three locals,
otherwise the generator is exhausted. -/
def MemoryMapGenerator.next (g : MemoryMapGenerator α) (it : BatchIterator) :
    Option ((List α × List ℚ) × BatchIterator) :=
  if it.start < g.X.length then
    some ((pySlice g.X it.start it.stop, pySlice g.weights it.start it.stop),
      ⟨it.start + g.batch_size, it.stop + g.batch_size, it.iteration + 1⟩)
  else
    none

/-- Drain a generator object for at most `fuel` steps, collecting the
yielded batches in order. -/
def MemoryMapGenerator.runIterator (g : MemoryMapGenerator α) :
    BatchIterator → ℕ → List (List α × List ℚ)
  | _, 0 => []
  | it, fuel + 1 =>
    match g.next it with
    | none => []
    | some (b, it') => b :: g.runIterator it' fuel

/-- Two successive calls of `batches()` on the same generator, each drained
with the given fuel.  Per the source, each call re-evaluates
`start, end = 0, self.batch_size`, so both traversals begin from the fresh
iterator `batchesCall`. -/
def MemoryMapGenerator.twoEpochs (g : MemoryMapGenerator α) (fuel : ℕ) :
    List (List α × List ℚ) × List (List α × List ℚ) :=
  (g.runIterator g.batchesCall fuel, g.runIterator g.batchesCall fuel)

/-- Stated from the spec's words (section 4.3): one epoch is the sequence of
`[start, end)` windows of width `b`; the k-th batch pairs the feature slice
`X[k*b : min((k+1)*b, n)]` (the final window clamped to the dataset
boundary) with the weight slice `weights[k*b : (k+1)*b]`, for
`k = 0 .. ⌈n/b⌉ - 1`, where `⌈n/b⌉ = (n + b - 1) / b`. -/
def specWindows (X : List α) (W : List ℚ) (b : ℕ) : List (List α × List ℚ) :=
  (List.range ((X.length + b - 1) / b)).map fun k =>
    (pySlice X (k * b) (min ((k + 1) * b) X.length),
     pySlice W (k * b) ((k + 1) * b))

/-- A Python value relevant to the `BaseGenerator` contract: the builtin
exception class `NotImplementedError` used as a first-class object. -/
inductive PyVal where
  | notImplementedErrorClass : PyVal
  deriving DecidableEq

/-- The outcome of calling a Python method: a normal return of a value, or
a raised exception. -/
inductive Outcome where
  | returns : PyVal → Outcome
  | raises : PyVal → Outcome
  deriving DecidableEq

/-- Whether a call outcome is a raised exception. -/
def Outcome.isRaised : Outcome → Bool
  | .raises _ => true
  | .returns _ => false

/-- The abstract `BaseGenerator` of the tutorial: `__init__(self)` is
`pass`, so the object carries no data. -/
inductive BaseGenerator where
  | mk : BaseGenerator

/-- `BaseGenerator.__len__`: the body is `return NotImplementedError`. -/
def BaseGenerator.len (_ : BaseGenerator) : Outcome :=
  .returns .notImplementedErrorClass

/-- `BaseGenerator.shape` (a property): `return NotImplementedError`. -/
def BaseGenerator.shape (_ : BaseGenerator) : Outcome :=
  .returns .notImplementedErrorClass

/-- `BaseGenerator.ndim` (a property): `return NotImplementedError`. -/
def BaseGenerator.ndim (_ : BaseGenerator) : Outcome :=
  .returns .notImplementedErrorClass

/-- `BaseGenerator.batches`: `return NotImplementedError`. -/
def BaseGenerator.batches (_ : BaseGenerator) : Outcome :=
  .returns .notImplementedErrorClass

/-- `BaseGenerator.unlabeled_batches`: `return NotImplementedError`. -/
def BaseGenerator.unlabeled_batches (_ : BaseGenerator) : Outcome :=
  .returns .notImplementedErrorClass

/-- `BaseGenerator.labeled_batches`: `return NotImplementedError`. -/
def BaseGenerator.labeled_batches (_ : BaseGenerator) : Outcome :=
  .returns .notImplementedErrorClass

lemma pySlice_length (l : List α) (s e : ℕ) :
    (pySlice l s e).length = min (e - s) (l.length - s) := by
  simp [pySlice]

lemma pySlice_replicate (n : ℕ) (c : ℚ) (s e : ℕ) :
    pySlice (List.replicate n c) s e = List.replicate (min (e - s) (n - s)) c := by
  simp [pySlice, List.drop_replicate, List.take_replicate]

lemma pySlice_stop_clamp (l : List α) (s e : ℕ) :
    pySlice l s e = pySlice l s (min e l.length) := by
  unfold pySlice
  rw [List.take_eq_take]
  rw [List.length_drop]
  omega

lemma pySlice_zero_length (l : List α) : pySlice l 0 l.length = l := by
  simp [pySlice]

lemma pySlice_zero_zero (l : List α) : pySlice l 0 0 = [] := by
  simp [pySlice]

lemma batchesAux_succ (g : MemoryMapGenerator α) (fuel start stop : ℕ) :
    g.batchesAux (fuel + 1) start stop =
      if start < g.X.length then
        ((pySlice g.X start stop, pySlice g.weights start stop) ::
            (g.batchesAux fuel (start + g.batch_size) (stop + g.batch_size)).1,
          (g.batchesAux fuel (start + g.batch_size) (stop + g.batch_size)).2)
      else
        ([], true) := rfl

lemma ceil_div_step (m b : ℕ) (hm : 1 ≤ m) (hb : 1 ≤ b) :
    (m + b - 1) / b = (m - b + b - 1) / b + 1 := by
  have h1 : m + b - 1 = m - 1 + b := by omega
  rw [h1, Nat.add_div_right _ hb]
  rcases le_or_lt b m with h | h
  · have h2 : m - b + b - 1 = m - 1 := by omega
    rw [h2]
  · have h2 : m - b + b - 1 = b - 1 := by omega
    rw [h2, Nat.div_eq_of_lt (by omega), Nat.div_eq_of_lt (by omega)]

lemma range_map_shift {β : Type _} (c : ℕ) (f : ℕ → β) :
    (List.range (c + 1)).map f = f 0 :: (List.range c).map fun k => f (k + 1) := by
  rw [List.range_succ_eq_map, List.map_cons, List.map_map]
  rfl

lemma batchesAux_closed (g : MemoryMapGenerator α) (hb : 1 ≤ g.batch_size) :
    ∀ fuel start stop, g.X.length - start < fuel →
      g.batchesAux fuel start stop =
        ((List.range ((g.X.length - start + g.batch_size - 1) / g.batch_size)).map fun k =>
            (pySlice g.X (start + k * g.batch_size) (stop + k * g.batch_size),
             pySlice g.weights (start + k * g.batch_size) (stop + k * g.batch_size)),
          true) := by
  intro fuel
  induction fuel with
  | zero => intro start stop h; omega
  | succ fuel ih =>
    intro start stop h
    rw [batchesAux_succ]
    by_cases hs : start < g.X.length
    · rw [if_pos hs, ih (start + g.batch_size) (stop + g.batch_size) (by omega)]
      have hc : (g.X.length - start + g.batch_size - 1) / g.batch_size =
          (g.X.length - (start + g.batch_size) + g.batch_size - 1) / g.batch_size + 1 := by
        have h2 : g.X.length - (start + g.batch_size) =
            g.X.length - start - g.batch_size := by omega
        rw [h2]
        exact ceil_div_step _ _ (by omega) hb
      rw [hc, range_map_shift]
      have h1 : ∀ k : ℕ, start + (k + 1) * g.batch_size =
          start + g.batch_size + k * g.batch_size := fun k => by ring
      have h2 : ∀ k : ℕ, stop + (k + 1) * g.batch_size =
          stop + g.batch_size + k * g.batch_size := fun k => by ring
      simp only [Nat.zero_mul, Nat.add_zero, h1, h2]
    · rw [if_neg hs]
      have h0 : g.X.length - start = 0 := by omega
      rw [h0]
      rw [Nat.div_eq_of_lt (by omega)]
      simp

lemma batchesAux_flatten (g : MemoryMapGenerator α) (hb : 1 ≤ g.batch_size) :
    ∀ fuel start, g.X.length - start < fuel →
      ((g.batchesAux fuel start (start + g.batch_size)).1.map Prod.fst).flatten
        = g.X.drop start := by
  intro fuel
  induction fuel with
  | zero => intro start h; omega
  | succ fuel ih =>
    intro start h
    rw [batchesAux_succ]
    by_cases hs : start < g.X.length
    · rw [if_pos hs]
      dsimp only
      rw [List.map_cons, List.flatten_cons, ih (start + g.batch_size) (by omega)]
      have h1 : pySlice g.X start (start + g.batch_size) =
          (g.X.drop start).take g.batch_size := by
        unfold pySlice
        rw [Nat.add_sub_cancel_left]
      have h2 : g.X.drop (start + g.batch_size) =
          (g.X.drop start).drop g.batch_size := by
        rw [List.drop_drop]
      rw [h1, h2, List.take_append_drop]
    · rw [if_neg hs]
      dsimp only
      rw [List.map_nil, List.flatten_nil, List.drop_eq_nil_of_le (by omega)]

lemma batchesAux_diverges (g : MemoryMapGenerator α) (hb : g.batch_size = 0)
    (start stop : ℕ) (hs : start < g.X.length) :
    ∀ fuel, g.batchesAux fuel start stop =
      (List.replicate fuel (pySlice g.X start stop, pySlice g.weights start stop),
        false) := by
  intro fuel
  induction fuel with
  | zero => rfl
  | succ fuel ih =>
    rw [batchesAux_succ, if_pos hs, hb]
    simp only [Nat.add_zero]
    rw [ih, List.replicate_succ]

lemma runIterator_succ (g : MemoryMapGenerator α) (it : BatchIterator) (fuel : ℕ) :
    g.runIterator it (fuel + 1) =
      match g.next it with
      | none => []
      | some (b, it') => b :: g.runIterator it' fuel := rfl

lemma runIterator_eq_batchesAux (g : MemoryMapGenerator α) :
    ∀ fuel (it : BatchIterator),
      g.runIterator it fuel = (g.batchesAux fuel it.start it.stop).1 := by
  intro fuel
  induction fuel with
  | zero => intro it; rfl
  | succ fuel ih =>
    intro it
    rw [runIterator_succ, batchesAux_succ]
    by_cases hs : it.start < g.X.length
    · have hn : g.next it =
          some ((pySlice g.X it.start it.stop, pySlice g.weights it.start it.stop),
            ⟨it.start + g.batch_size, it.stop + g.batch_size, it.iteration + 1⟩) := by
        simp [MemoryMapGenerator.next, hs]
      rw [hn, if_pos hs]
      dsimp only
      rw [ih ⟨it.start + g.batch_size, it.stop + g.batch_size, it.iteration + 1⟩]
    · have hn : g.next it = none := by
        simp [MemoryMapGenerator.next, hs]
      rw [hn, if_neg hs]

lemma batchesN_terminating (g : MemoryMapGenerator α) (hb : 1 ≤ g.batch_size) :
    g.batchesN (g.length + 1) = (specWindows g.X g.weights g.batch_size, true) := by
  show g.batchesAux (g.X.length + 1) 0 g.batch_size = _
  rw [batchesAux_closed g hb (g.X.length + 1) 0 g.batch_size (by omega)]
  unfold specWindows
  have hk : ∀ k : ℕ, g.batch_size + k * g.batch_size = (k + 1) * g.batch_size :=
    fun k => by ring
  simp only [Nat.sub_zero, Nat.zero_add, hk, ← pySlice_stop_clamp]

lemma batches_eq_windows (g : MemoryMapGenerator α) (hb : 1 ≤ g.batch_size) :
    g.batches = some (specWindows g.X g.weights g.batch_size) := by
  simp [MemoryMapGenerator.batches, batchesN_terminating g hb]

lemma windows_flatten (g : MemoryMapGenerator α) (hb : 1 ≤ g.batch_size) :
    ((specWindows g.X g.weights g.batch_size).map Prod.fst).flatten = g.X := by
  have h := batchesAux_flatten g hb (g.X.length + 1) 0 (by omega)
  rw [Nat.zero_add, List.drop_zero] at h
  have h2 := batchesN_terminating g hb
  rw [show g.batchesN (g.length + 1) =
      g.batchesAux (g.X.length + 1) 0 g.batch_size from rfl] at h2
  rw [h2] at h
  exact h

/-- C1: for the out-of-core adapter `MemoryMapGenerator` with a positive
batch size, one traversal of `batches()` walks `[start, end)` windows of
width `batch_size` starting at 0, yields the (feature-slice, weight-slice)
pair of each window, advances both offsets by `batch_size` each step, stops
once `start ≥ length()`, and clamps the final window to the dataset
boundary: the k-th batch is `X[k*b : min((k+1)*b, n)]` paired with
`weights[k*b : (k+1)*b]` (`specWindows`).  A batch size of 0 on a non-empty
dataset makes the loop run forever and is treated with the termination
claim instead. -/
theorem batches_walks_clamped_windows (g : MemoryMapGenerator α)
    (hb : 1 ≤ g.batch_size) :
    g.batches = some (specWindows g.X g.weights g.batch_size) :=
  batches_eq_windows g hb

/-- Witness for the traversal claim: a dataset of five rows with batch
size 2 yields the three clamped windows. -/
theorem batches_walks_clamped_windows_witness :
    1 ≤ (⟨[10, 20, 30, 40, 50], [1, 2, 3, 4, 5], 2⟩ : MemoryMapGenerator ℕ).batch_size ∧
    (⟨[10, 20, 30, 40, 50], [1, 2, 3, 4, 5], 2⟩ : MemoryMapGenerator ℕ).batches =
      some [([10, 20], [1, 2]), ([30, 40], [3, 4]), ([50], [5])] :=
  ⟨by decide, (batches_walks_clamped_windows _ (by decide)).trans (by decide)⟩

/-- C2: for the fixed-size chunk adapter `MemoryMapGenerator`, for every
batch size `b ≥ 1` and every dataset, one call of `batches()` yields
exactly `⌈n / b⌉ = (n + b - 1) / b` batches, and concatenating the feature
parts of all batches in yield order reconstructs the dataset exactly
(round-trip). -/
theorem batches_count_eq_ceil_and_roundtrip (g : MemoryMapGenerator α)
    (hb : 1 ≤ g.batch_size) :
    ∃ L, g.batches = some L ∧
      L.length = (g.length + g.batch_size - 1) / g.batch_size ∧
      (L.map Prod.fst).flatten = g.X := by
  refine ⟨specWindows g.X g.weights g.batch_size, batches_eq_windows g hb, ?_,
    windows_flatten g hb⟩
  simp [specWindows, MemoryMapGenerator.length]

/-- Witness for the count/round-trip claim: seven rows with batch size 3
give `⌈7/3⌉ = 3` batches whose feature parts flatten back to the dataset. -/
theorem batches_count_eq_ceil_and_roundtrip_witness :
    1 ≤ (⟨[0, 1, 2, 3, 4, 5, 6], List.replicate 7 1, 3⟩ : MemoryMapGenerator ℕ).batch_size ∧
    ∃ L, (⟨[0, 1, 2, 3, 4, 5, 6], List.replicate 7 1, 3⟩ : MemoryMapGenerator ℕ).batches =
        some L ∧
      L.length = ((⟨[0, 1, 2, 3, 4, 5, 6], List.replicate 7 1, 3⟩ :
          MemoryMapGenerator ℕ).length + 3 - 1) / 3 ∧
      (L.map Prod.fst).flatten = [0, 1, 2, 3, 4, 5, 6] :=
  ⟨by decide, batches_count_eq_ceil_and_roundtrip _ (by decide)⟩

/-- C3: for every `MemoryMapGenerator` with batch size `b ≥ 1`, the lengths
of the feature-slices yielded in one epoch sum to `length()`, and the
batches are pairwise disjoint and collectively exhaustive: their
concatenation in yield order is exactly the dataset, so no example is
skipped or duplicated within the epoch. -/
theorem batches_cover_dataset_exactly (g : MemoryMapGenerator α)
    (hb : 1 ≤ g.batch_size) :
    ∃ L, g.batches = some L ∧
      (L.map fun p => p.1.length).sum = g.length ∧
      (L.map Prod.fst).flatten = g.X := by
  refine ⟨specWindows g.X g.weights g.batch_size, batches_eq_windows g hb, ?_,
    windows_flatten g hb⟩
  have h := congrArg List.length (windows_flatten g hb)
  rw [List.length_flatten, List.map_map] at h
  exact h

/-- Witness for the coverage claim: five rows with batch size 2 give
batches of sizes 2, 2, 1 summing to 5 and flattening to the dataset. -/
theorem batches_cover_dataset_exactly_witness :
    1 ≤ (⟨[7, 8, 9, 10, 11], List.replicate 5 1, 2⟩ : MemoryMapGenerator ℕ).batch_size ∧
    ∃ L, (⟨[7, 8, 9, 10, 11], List.replicate 5 1, 2⟩ : MemoryMapGenerator ℕ).batches =
        some L ∧
      (L.map fun p => p.1.length).sum =
        (⟨[7, 8, 9, 10, 11], List.replicate 5 1, 2⟩ : MemoryMapGenerator ℕ).length ∧
      (L.map Prod.fst).flatten = [7, 8, 9, 10, 11] :=
  ⟨by decide, batches_cover_dataset_exactly _ (by decide)⟩

/-- C4 counterexample: constructing a `MemoryMapGenerator` over a 3-row
dataset with a supplied weight array of length 1 does not fail — `__init__`
performs no shape check — and `batches()` then produces batches whose
weight-slices are silently truncated (the second batch carries no weight at
all), contradicting a `ShapeMismatch` failure before any batch is
produced. -/
theorem init_mismatched_weights_no_failure_cex :
    (MemoryMapGenerator.init [0, 1, 2] (some [7]) (some 2) :
        MemoryMapGenerator ℕ).weights.length ≠
      (MemoryMapGenerator.init [0, 1, 2] (some [7]) (some 2) :
        MemoryMapGenerator ℕ).length ∧
    (MemoryMapGenerator.init [0, 1, 2] (some [7]) (some 2) :
        MemoryMapGenerator ℕ).batches =
      some [([0, 1], [7]), ([2], [])] := by
  decide

/-- C4 as amended: construction with a supplied weight array never fails,
whatever its length — `__init__` stores the dataset and the weights exactly
as given, with no validation; a length mismatch therefore goes undetected
at construction time and surfaces only as misaligned weight-slices during
iteration. -/
theorem init_stores_weights_unvalidated (X : List α) (W : List ℚ)
    (bopt : Option ℕ) :
    (MemoryMapGenerator.init X (some W) bopt).X = X ∧
    (MemoryMapGenerator.init X (some W) bopt).weights = W :=
  ⟨rfl, rfl⟩

lemma specWindows_full (X : List α) (W : List ℚ) (hW : W.length = X.length)
    (hn : 1 ≤ X.length) : specWindows X W X.length = [(X, W)] := by
  unfold specWindows
  have h1 : (X.length + X.length - 1) / X.length = 1 := by
    rw [show X.length + X.length - 1 = X.length - 1 + X.length from by omega,
      Nat.add_div_right _ (by omega), Nat.div_eq_of_lt (by omega)]
  rw [h1, show (1 : ℕ) = 0 + 1 from rfl, List.range_succ, List.range_zero]
  simp only [List.nil_append, List.map_cons, List.map_nil]
  rw [Nat.zero_mul, Nat.zero_add, Nat.one_mul, Nat.min_self, pySlice_zero_length,
    show pySlice W 0 X.length = pySlice W 0 W.length from by rw [hW],
    pySlice_zero_length]

/-- C5: when a `MemoryMapGenerator` is constructed with no batch size, the
batch size defaults to the full dataset length, and — for a non-empty
dataset whose weight source (when supplied) matches the dataset length —
one call of `batches()` yields exactly one batch holding the entire
dataset and the entire weight vector.  On an empty dataset the same
default produces zero batches, which is the empty-dataset claim. -/
theorem default_batch_size_yields_single_batch (X : List α)
    (wopt : Option (List ℚ)) (hw : ∀ W ∈ wopt, W.length = X.length)
    (hn : 1 ≤ X.length) :
    (MemoryMapGenerator.init X wopt none).batch_size = X.length ∧
    (MemoryMapGenerator.init X wopt none).batches =
      some [(X, (MemoryMapGenerator.init X wopt none).weights)] := by
  refine ⟨rfl, ?_⟩
  have hwlen : (MemoryMapGenerator.init X wopt none).weights.length = X.length := by
    cases wopt with
    | none => simp [MemoryMapGenerator.init]
    | some w => simpa [MemoryMapGenerator.init] using hw w rfl
  have h := batches_eq_windows (MemoryMapGenerator.init X wopt none) hn
  rw [h]
  show some (specWindows X (MemoryMapGenerator.init X wopt none).weights X.length) =
    some [(X, (MemoryMapGenerator.init X wopt none).weights)]
  rw [specWindows_full X _ hwlen hn]

/-- Witness for the default-batch-size claim: three rows and a matching
supplied weight array give the single batch `(X, weights)`. -/
theorem default_batch_size_yields_single_batch_witness :
    ([2, 3, 4] : List ℚ).length = ([4, 5, 6] : List ℕ).length ∧
    (MemoryMapGenerator.init ([4, 5, 6] : List ℕ) (some [2, 3, 4]) none).batch_size =
      ([4, 5, 6] : List ℕ).length ∧
    (MemoryMapGenerator.init ([4, 5, 6] : List ℕ) (some [2, 3, 4]) none).batches =
      some [([4, 5, 6], [2, 3, 4])] := by
  have hw : ∀ W ∈ (some [2, 3, 4] : Option (List ℚ)),
      W.length = ([4, 5, 6] : List ℕ).length := by
    intro W hW
    rw [Option.mem_def] at hW
    injection hW with hW
    subst hW
    rfl
  have h := default_batch_size_yields_single_batch ([4, 5, 6] : List ℕ)
    (some [2, 3, 4]) hw (by decide)
  exact ⟨rfl, h.1, h.2.trans (by rfl)⟩

lemma mem_batchesAux_ones (g : MemoryMapGenerator α)
    (hw : g.weights = List.replicate g.X.length 1) :
    ∀ fuel start stop p, p ∈ (g.batchesAux fuel start stop).1 →
      p.2 = List.replicate p.1.length 1 := by
  intro fuel
  induction fuel with
  | zero => intro start stop p hp; simp [MemoryMapGenerator.batchesAux] at hp
  | succ fuel ih =>
    intro start stop p hp
    rw [batchesAux_succ] at hp
    by_cases hs : start < g.X.length
    · rw [if_pos hs] at hp
      rcases List.mem_cons.mp hp with h | h
      · subst h
        rw [hw, pySlice_replicate, pySlice_length]
      · exact ih (start + g.batch_size) (stop + g.batch_size) p h
    · rw [if_neg hs] at hp
      simp at hp

/-- C6: when a `MemoryMapGenerator` is constructed with no weight source,
`__init__` assumes a uniform weight of 1.0 per example
(`numpy.ones(n)`), so every batch the loop ever yields — for any batch
size configuration and any amount of fuel — pairs its feature-slice with a
vector of ones of the same length. -/
theorem default_weights_slices_all_ones (X : List α) (bopt : Option ℕ)
    (fuel : ℕ) (p : List α × List ℚ)
    (hp : p ∈ ((MemoryMapGenerator.init X none bopt).batchesN fuel).1) :
    p.2 = List.replicate p.1.length 1 :=
  mem_batchesAux_ones (MemoryMapGenerator.init X none bopt) rfl fuel 0
    (MemoryMapGenerator.init X none bopt).batch_size p hp

/-- Witness for the default-weights claim: the first batch of a three-row
dataset with batch size 2 and no weight source carries weights `[1, 1]`. -/
theorem default_weights_slices_all_ones_witness :
    (([10, 20], [1, 1]) : List ℕ × List ℚ) ∈
      ((MemoryMapGenerator.init [10, 20, 30] none (some 2)).batchesN 5).1 ∧
    (([10, 20], [1, 1]) : List ℕ × List ℚ).2 =
      List.replicate (([10, 20], [1, 1]) : List ℕ × List ℚ).1.length 1 :=
  ⟨by decide, default_weights_slices_all_ones [10, 20, 30] (some 2) 5 _ (by decide)⟩

/-- C7: if the wrapped dataset has length zero then, for every weight
source and every constructor-accepted batch-size configuration (default or
explicit, including 0), the loop guard fails immediately and `batches()`
yields the empty sequence of batches rather than failing. -/
theorem empty_dataset_batches_empty (X : List α) (wopt : Option (List ℚ))
    (bopt : Option ℕ) (h : X.length = 0) :
    (MemoryMapGenerator.init X wopt bopt).batches = some [] := by
  have hX : X = [] := List.length_eq_zero.mp h
  subst hX
  cases bopt <;> cases wopt <;> rfl

/-- Witness for the empty-dataset claim: an empty dataset with an explicit
batch size of 7 and a (mismatched) weight source still yields zero
batches. -/
theorem empty_dataset_batches_empty_witness :
    ([] : List ℕ).length = 0 ∧
    (MemoryMapGenerator.init ([] : List ℕ) (some [3]) (some 7)).batches = some [] :=
  ⟨rfl, empty_dataset_batches_empty ([] : List ℕ) (some [3]) (some 7) rfl⟩

/-- C8: calling `batches()` twice in succession yields two traversals of
identical content, because the `MemoryMapGenerator` object stores no
cursor: each call builds a fresh iterator with `start, end = 0,
self.batch_size` and `iteration = 0`, so the traversal is a function of
the immutable fields alone and begins at position zero — no state of a
prior epoch can leak into the next. -/
theorem batches_calls_independent_and_fresh (g : MemoryMapGenerator α)
    (fuel : ℕ) :
    (g.twoEpochs fuel).1 = (g.twoEpochs fuel).2 ∧
    (g.twoEpochs fuel).1 = (g.batchesN fuel).1 ∧
    g.batchesCall.start = 0 ∧ g.batchesCall.iteration = 0 := by
  refine ⟨rfl, ?_, rfl, rfl⟩
  show g.runIterator g.batchesCall fuel = _
  rw [runIterator_eq_batchesAux g fuel g.batchesCall]
  rfl

/-- C9: evaluation of the `BaseGenerator` code at its failing inputs.  The
body of every unimplemented operation is `return NotImplementedError`, so
each call hands the exception class back as an ordinary return value and
raises nothing — contradicting the claim that the operations fail with
`NotImplemented` when called rather than returning an ordinary value (the
source's `return` is a slip for `raise`). -/
theorem baseGenerator_methods_return_not_raise :
    BaseGenerator.mk.len = Outcome.returns PyVal.notImplementedErrorClass ∧
    BaseGenerator.mk.shape = Outcome.returns PyVal.notImplementedErrorClass ∧
    BaseGenerator.mk.ndim = Outcome.returns PyVal.notImplementedErrorClass ∧
    BaseGenerator.mk.batches = Outcome.returns PyVal.notImplementedErrorClass ∧
    BaseGenerator.mk.unlabeled_batches = Outcome.returns PyVal.notImplementedErrorClass ∧
    BaseGenerator.mk.labeled_batches = Outcome.returns PyVal.notImplementedErrorClass ∧
    BaseGenerator.mk.len.isRaised = false ∧
    BaseGenerator.mk.batches.isRaised = false ∧
    BaseGenerator.mk.unlabeled_batches.isRaised = false ∧
    BaseGenerator.mk.labeled_batches.isRaised = false := by
  decide

/-- C10: one traversal of `batches()` terminates if and only if the batch
size is positive or the dataset is empty; in particular a batch size of 0
on a non-empty dataset makes the loop run forever — every amount of fuel
is exhausted with the run unfinished — while yielding only empty slices,
never advancing past the dataset. -/
theorem batches_terminates_iff_positive_or_empty (g : MemoryMapGenerator α) :
    (g.terminates ↔ (1 ≤ g.batch_size ∨ g.length = 0)) ∧
    (g.batch_size = 0 → 1 ≤ g.length →
      ∀ fuel, g.batchesN fuel = (List.replicate fuel ([], []), false)) := by
  have hdiv : g.batch_size = 0 → 1 ≤ g.length →
      ∀ fuel, g.batchesN fuel = (List.replicate fuel ([], []), false) := by
    intro hb0 hn fuel
    show g.batchesAux fuel 0 g.batch_size = _
    rw [hb0, batchesAux_diverges g hb0 0 0 hn fuel, pySlice_zero_zero,
      pySlice_zero_zero]
  refine ⟨⟨?_, ?_⟩, hdiv⟩
  · rintro ⟨fuel, hf⟩
    by_contra hcon
    push_neg at hcon
    obtain ⟨hb, hn⟩ := hcon
    have hb0 : g.batch_size = 0 := by omega
    have hn1 : 1 ≤ g.length := by
      have : g.length ≠ 0 := hn
      omega
    rw [hdiv hb0 hn1 fuel] at hf
    simp at hf
  · rintro (hb | hn)
    · exact ⟨g.length + 1, by rw [batchesN_terminating g hb]⟩
    · refine ⟨1, ?_⟩
      have hX : g.X.length = 0 := hn
      show (g.batchesAux (0 + 1) 0 g.batch_size).2 = true
      rw [batchesAux_succ, if_neg (by omega)]

/-- Witness for the termination claim: a one-row dataset with batch size 0
satisfies neither disjunct, and the first three loop iterations each yield
the empty slice pair with the run still unfinished. -/
theorem batches_terminates_iff_positive_or_empty_witness :
    (⟨[5], [1], 0⟩ : MemoryMapGenerator ℕ).batch_size = 0 ∧
    1 ≤ (⟨[5], [1], 0⟩ : MemoryMapGenerator ℕ).length ∧
    (⟨[5], [1], 0⟩ : MemoryMapGenerator ℕ).batchesN 3 =
      (List.replicate 3 ([], []), false) :=
  ⟨rfl, by decide,
    (batches_terminates_iff_positive_or_empty
      (⟨[5], [1], 0⟩ : MemoryMapGenerator ℕ)).2 rfl (by decide) 3⟩
